import Mathlib

/-!
Verification of the Wallet repository's IPC layer and DWH client.

Part 1 embeds the wire-envelope types from `src/front/src/ipc/types.ts`.
Part 2 models the Request Dispatcher / Response Router / Signer from the
specification (their implementation is not among the provided sources;
only the type declarations in `types.ts` are).
Part 3 embeds the pure functions of `src/front/src/worker/api/dwh.ts`.
-/

/-! ### Part 1: wire envelope types, from `src/front/src/ipc/types.ts` -/

/-- Type `IValidation` from `types.ts`: a flat string-to-string map,
`{ [key: string]: string }`, embedded as an association list. -/
abbrev IValidation := List (String × String)

/-- Type `IRequest<T>` from `types.ts`. -/
structure IRequest (T : Type) where
  method : String
  requestId : String
  payload : T
  sign : String
  deriving DecidableEq

/-- Type `IResponse<T>` from `types.ts`; the optional fields
(`requestId?`, `validation?`, `error?`) are embedded as `Option`. -/
structure IResponse (T : Type) where
  requestId : Option String
  success : Bool
  data : T
  validation : Option IValidation
  error : Option String
  sign : String
  done : Bool
  deriving DecidableEq

/-- The Request record exactly as the specification words it:
`{ method: string, requestId: string, payload: T, sign: string }`. -/
structure SpecRequest (T : Type) where
  method : String
  requestId : String
  payload : T
  sign : String

/-- The Response record exactly as the specification words it:
`{ requestId?: string, success: bool, data: T, validation?: map<string,string>,
error?: string, sign: string, done: bool }`. -/
structure SpecResponse (T : Type) where
  requestId : Option String
  success : Bool
  data : T
  validation : Option IValidation
  error : Option String
  sign : String
  done : Bool

/-- Field-for-field translation of a source `IRequest` into the spec's record. -/
def reqToSpec (r : IRequest T) : SpecRequest T :=
  ⟨r.method, r.requestId, r.payload, r.sign⟩

/-- Field-for-field translation of the spec's Request record into the source type. -/
def reqOfSpec (r : SpecRequest T) : IRequest T :=
  ⟨r.method, r.requestId, r.payload, r.sign⟩

/-- Field-for-field translation of a source `IResponse` into the spec's record. -/
def respToSpec (r : IResponse T) : SpecResponse T :=
  ⟨r.requestId, r.success, r.data, r.validation, r.error, r.sign, r.done⟩

/-- Field-for-field translation of the spec's Response record into the source type. -/
def respOfSpec (r : SpecResponse T) : IResponse T :=
  ⟨r.requestId, r.success, r.data, r.validation, r.error, r.sign, r.done⟩

/-! ### Part 2: the IPC core, modelled from the specification

The dispatcher / router / signer implementation is not among the provided
source files (only the type declarations in `types.ts` are), so the
operational parts below are modelled from the specification's words
(sections 3, 4.1, 4.2, 4.3). Promises are collapsed to their resolved
values (the scheduling model is single-threaded cooperative), a rejected
promise becomes `Except.error`, and `requestId` values are abstracted as
counter values (`Nat`), the generation scheme the spec itself suggests. -/

/-- Type `IResult<T>` from `types.ts`: `{ data?: T, validation?: IValidation,
continuation?: TResultPromise<T> }`. The continuation promise is collapsed
to its resolved value, so a finite chain is an inductive value; `none`
means the field is absent (or the promise is still pending). -/
inductive IResult (T : Type) where
  | mk (data : Option T) (validation : Option IValidation)
      (continuation : Option (IResult T))

/-- The `data` field of an `IResult`. -/
def IResult.data : IResult T → Option T
  | .mk d _ _ => d

/-- The `validation` field of an `IResult`. -/
def IResult.validation : IResult T → Option IValidation
  | .mk _ v _ => v

/-- The `continuation` field of an `IResult`. -/
def IResult.continuation : IResult T → Option (IResult T)
  | .mk _ _ c => c

/-- Type `TRequestProcessor<TPayload, TResult>` from `types.ts`:
`(type, payload) => TResultPromise<TResult>`, the promise collapsed; a
processor that raises is modelled by `Except.error`. -/
def TRequestProcessor (P D : Type) := String → P → Except String (IResult D)

/-- Modelled from the spec: a Request envelope whose `requestId` is a
dispatcher-generated counter value. -/
structure MRequest (P : Type) where
  method : String
  requestId : Nat
  payload : P
  sign : String
  deriving DecidableEq

/-- Modelled from the spec: a Response envelope correlated by the
counter-valued `requestId`; `data` is `Option` so that a response carrying
no meaningful data is `none`. -/
structure MResponse (D : Type) where
  requestId : Option Nat
  success : Bool
  data : Option D
  validation : Option IValidation
  error : Option String
  sign : String
  done : Bool
  deriving DecidableEq

/-- Modelled from the spec (§4.3 Signer): `sign` is deterministic in the
envelope's content; the exact algorithm is delegated, so it is an abstract
function of the signed fields. `verify` is the equality check against the
recomputed tag. -/
structure Signer (P D : Type) where
  signReq : String → Nat → P → String
  signResp : Option Nat → Bool → Option D → Option IValidation →
      Option String → Bool → String

/-- A response signed over its own content, as §4.2 requires
("Every outgoing Response is signed before transmission"). -/
def mkSignedResp (s : Signer P D) (rid : Option Nat) (success : Bool)
    (data : Option D) (validation : Option IValidation)
    (error : Option String) (done : Bool) : MResponse D :=
  ⟨rid, success, data, validation, error,
    s.signResp rid success data validation error done, done⟩

/-- Modelled from the spec: the single terminal failure Response
(`success=false`, `error` populated, `done=true`, no meaningful data). -/
def errResponse (s : Signer P D) (rid : Nat) (msg : String) : MResponse D :=
  mkSignedResp s (some rid) false none none (some msg) true

/-- Modelled from the spec (§4.2): one Response per Result of the chain,
all with the caller's `requestId`, `success=true`, `done=false` for every
Result except the last, which carries `done=true`. -/
def emitChain (s : Signer P D) (rid : Nat) : IResult D → List (MResponse D)
  | .mk d v none => [mkSignedResp s (some rid) true d v none true]
  | .mk d v (some next) =>
      mkSignedResp s (some rid) true d v none false :: emitChain s rid next

/-- The Router's observable outcome for one incoming Request: the emitted
Responses and whether the Processor was invoked. -/
structure RouterOutput (D : Type) where
  responses : List (MResponse D)
  invoked : Bool

/-- Modelled from the spec (§4.2 Response Router): verify the signature
(on failure answer `invalid signature` and never invoke the Processor),
look up the Processor (if none, answer `unknown method`), otherwise run it
and emit its Result chain, or its raised error as a terminal failure. -/
def handleRequest (s : Signer P D)
    (registry : String → Option (TRequestProcessor P D))
    (req : MRequest P) : RouterOutput D :=
  if req.sign = s.signReq req.method req.requestId req.payload then
    match registry req.method with
    | none => ⟨[errResponse s req.requestId "unknown method"], false⟩
    | some proc =>
      match proc req.method req.payload with
      | .error msg => ⟨[errResponse s req.requestId msg], true⟩
      | .ok result => ⟨emitChain s req.requestId result, true⟩
  else ⟨[errResponse s req.requestId "invalid signature"], false⟩

/-- Modelled from the spec (§3): a Correlation Table entry holds the
pending caller state: the flag distinguishing "awaiting first response"
from "awaiting continuation", and the data/validation pairs delivered to
the caller so far. -/
structure CorrelationEntry (D : Type) where
  awaitingFirst : Bool
  received : List (Option D × Option IValidation)
  deriving DecidableEq

/-- Modelled from the spec: the caller-side state, a monotone counter for
fresh `requestId`s and the Correlation Table as an association list. -/
structure DispState (D : Type) where
  nextId : Nat
  table : List (Nat × CorrelationEntry D)

/-- The live `requestId`s of a Correlation Table. -/
def keys (t : List (Nat × CorrelationEntry D)) : List Nat :=
  t.map Prod.fst

/-- Rewrite the entry stored under `rid`, keeping every key in place. -/
def updateEntry (rid : Nat) (f : CorrelationEntry D → CorrelationEntry D) :
    List (Nat × CorrelationEntry D) → List (Nat × CorrelationEntry D) :=
  List.map (fun kv => if kv.1 = rid then (kv.1, f kv.2) else kv)

/-- Modelled from the spec (§4.1): the Request the Dispatcher sends for
`dispatch(method, payload)` — fresh `requestId`, envelope signed via the
Signer. -/
def mkRequest (s : Signer P D) (st : DispState D) (m : String) (p : P) :
    MRequest P :=
  ⟨m, st.nextId, p, s.signReq m st.nextId p⟩

/-- Modelled from the spec (§4.1): the state change of `dispatch` —
register a Correlation Table entry under the fresh `requestId` (awaiting
its first response) and advance the counter. -/
def dispatch (st : DispState D) : DispState D :=
  ⟨st.nextId + 1, (st.nextId, ⟨true, []⟩) :: st.table⟩

/-- Modelled from the spec (§4.1, §8): the Dispatcher's handling of one
incoming Response. A response whose signature fails `verify` never updates
the table; an unmatched `requestId` is ignored; `done=true` destroys the
entry; `done=false` appends the delivered data/validation and switches the
entry to "awaiting continuation". -/
def onResponse (s : Signer P D) (st : DispState D) (resp : MResponse D) :
    DispState D :=
  if resp.sign = s.signResp resp.requestId resp.success resp.data
      resp.validation resp.error resp.done then
    match resp.requestId with
    | none => st
    | some rid =>
      if rid ∈ keys st.table then
        if resp.done then
          { st with table := st.table.eraseP (fun kv => kv.1 == rid) }
        else
          { st with table := (updateEntry rid
              (fun e => ⟨false, e.received ++ [(resp.data, resp.validation)]⟩)
              st.table) }
      else st
  else st

/-- Modelled from the spec (§4.1): resolution of an ordered list of
Responses sharing one `requestId` into the caller-facing Result chain —
the first Response resolves the promise, `done=false` makes the Result's
`continuation` resolve against the next Response, and a failed Response
never surfaces partial `data`. -/
def resolveChain : List (MResponse D) → Option (IResult D)
  | [] => none
  | r :: rest =>
      some (.mk (if r.success then r.data else none) r.validation
        (if r.done then none else resolveChain rest))

/-- The data values a caller observes by draining a Result chain:
its `data` field, then recursively the continuation's, until the first
Result with no continuation. -/
def observe : IResult T → List (Option T)
  | .mk d _ none => [d]
  | .mk d _ (some next) => d :: observe next

/-- An event on the caller side: a `dispatch` call, or the arrival of a
Response envelope (of arbitrary, possibly adversarial content). -/
inductive DispEvent (D : Type) where
  | dispatchEv
  | responseEv (resp : MResponse D)

/-- One caller-side step. -/
def stepEvent (s : Signer P D) (st : DispState D) : DispEvent D → DispState D
  | .dispatchEv => dispatch st
  | .responseEv r => onResponse s st r

/-- The caller-side state after a sequence of events. -/
def runEvents (s : Signer P D) (st : DispState D) (evs : List (DispEvent D)) :
    DispState D :=
  evs.foldl (stepEvent s) st

/-- The initial caller-side state: empty Correlation Table, counter at 0. -/
def initState (D : Type) : DispState D := ⟨0, []⟩

/-! ### Part 3: the DWH client, from `src/front/src/worker/api/dwh.ts` -/

/-- The `{ $gte?: string; $lte?: string }` argument of
`DWH.getMinMaxFilter`; the optional `$gte`/`$lte` keys are embedded as
`Option` fields `gte`/`lte`. -/
structure IMinMaxInput where
  gte : Option String
  lte : Option String
  deriving DecidableEq

/-- The `{ min, max }` record `DWH.getMinMaxFilter` builds; a JavaScript
`null` component is `none`. -/
structure IMinMax (α : Type) where
  min : Option α
  max : Option α
  deriving DecidableEq

/-- Type `t.IListQuery` as destructured by the DWH methods:
`{ limit, offset, filter?, sortBy?, sortDesc? }`. -/
structure IListQuery where
  limit : Int
  offset : Int
  filter : Option String
  sortBy : Option String
  sortDesc : Option Bool

/-- Type `t.IWorker` as built by `DWH.getWorkers`: `{ slaveId, confirmed }`. -/
structure IWorker where
  slaveId : String
  confirmed : Bool
  deriving DecidableEq

/-- Type `t.IListResult<T>`: `{ records, total }`. -/
structure IListResult (T : Type) where
  records : List T
  total : Nat
  deriving DecidableEq

/-- A raw worker record of the `GetWorkers` endpoint:
`{ slaveID, confirmed }`, `confirmed` an arbitrary truthy/falsy value
embedded as `Bool`. -/
structure RawWorker where
  slaveID : String
  confirmed : Bool

/-- The JSON body of a `GetWorkers` fetch: the `workers` and `count` keys,
each possibly absent. -/
structure WorkersRes where
  workers : Option (List RawWorker)
  count : Option Nat

/-- The parameters `getWorkers` posts to the `GetWorkers` endpoint:
`{ masterID, limit, offset, WithCount: true }`. -/
structure WorkersFetchParams where
  masterID : String
  limit : Int
  offset : Int
  deriving DecidableEq

/-- The slice of a JSON-parsed filter that `getWorkers` reads: the value
at path `address.$eq` (a string when present), `none` when the path is
absent. -/
structure WorkersFilter where
  addressEq : Option String

/-- JavaScript truthiness of `get('address.$eq', q)`: `undefined` and the
empty string are falsy. -/
def jsTruthy : Option String → Bool
  | none => false
  | some s => s ≠ ""

namespace DWH

/-- Function `DWH.getMinMaxFilter` from `dwh.ts`:
`value && ('$gte' in value || '$lte' in value)` guards the construction of
`{ min: value.$gte === undefined ? null : converter(value.$gte), max: … }`;
otherwise the function returns `undefined`. The converter argument
(defaulting to `Number` in the source) is an explicit parameter. -/
def getMinMaxFilter (value : Option IMinMaxInput) (converter : String → α) :
    Option (IMinMax α) :=
  match value with
  | none => none
  | some v =>
    if v.gte.isSome || v.lte.isSome then
      some ⟨v.gte.map converter, v.lte.map converter⟩
    else none

/-- Function `DWH.recalculatePriceIn` from `dwh.ts`:
`String(new BN(price).mul(new BN(3600)))` — the product is computed in
exact big-number arithmetic and rendered as its decimal string. The claim
concerns non-negative integer prices, so the embedding is over `Nat`. -/
def recalculatePriceIn (price : Nat) : String :=
  Nat.repr (price * 3600)

/-- The mongo-like query `getWorkers` computes:
`filter ? JSON.parse(filter) : {}` — the filter string is parsed only when
truthy (the empty string is not); `JSON.parse` is the abstract `parse`
parameter, and `{}` has no `address.$eq` path. -/
def parsedWorkersQuery (parse : String → WorkersFilter) :
    Option String → WorkersFilter
  | none => ⟨none⟩
  | some f => if f = "" then ⟨none⟩ else parse f

/-- Function `DWH.getWorkers` from `dwh.ts`; `fetch` abstracts
`fetchData('GetWorkers', …)`; its `none` result is the `false` a non-200
reply produces, on which the source's `'workers' in res` access throws (a
`TypeError`). The second component of the result is the list of fetch
calls performed. -/
def getWorkers (parse : String → WorkersFilter)
    (fetch : String → WorkersFetchParams → Option WorkersRes)
    (q : IListQuery) :
    Except String (IListResult IWorker) × List (String × WorkersFetchParams) :=
  let mongoLikeQuery := parsedWorkersQuery parse q.filter
  let address := mongoLikeQuery.addressEq
  match address with
  | some a =>
    if a ≠ "" then
      let params : WorkersFetchParams := ⟨a, q.limit, q.offset⟩
      match fetch "GetWorkers" params with
      | some res =>
        let workers := match res.workers with
          | some ws => ws
          | none => []
        (Except.ok
          ⟨workers.map (fun w => ⟨w.slaveID, w.confirmed⟩),
            match res.count with
            | some c => c
            | none => 0⟩,
          [("GetWorkers", params)])
      | none => (Except.error "TypeError", [("GetWorkers", params)])
    else (Except.ok ⟨[], 0⟩, [])
  | none => (Except.ok ⟨[], 0⟩, [])

end DWH

/-! ### Theorems -/

/-- C1: the wire envelope schema is exactly as specified — the source's
`IRequest`/`IResponse` records and the spec's Request/Response records are
in field-for-field bijection (same fields, same types, no other fields;
`validation`, when present, is a flat string-to-string map by the shared
`IValidation` type). -/
theorem envelope_schema_exact (T : Type) (r : IRequest T) (rs : SpecRequest T)
    (p : IResponse T) (ps : SpecResponse T) :
    reqOfSpec (reqToSpec r) = r ∧ reqToSpec (reqOfSpec rs) = rs ∧
    respOfSpec (respToSpec p) = p ∧ respToSpec (respOfSpec ps) = ps :=
  ⟨rfl, rfl, rfl, rfl⟩

/-- C8: `DWH.getMinMaxFilter` returns `undefined` when the value argument
is absent or carries neither a `$gte` nor a `$lte` key, and otherwise the
record `{min, max}` with `min` the converted `$gte` (else `null`) and
`max` the converted `$lte` (else `null`). -/
theorem getMinMaxFilter_spec (conv : String → α) (v : IMinMaxInput) :
    DWH.getMinMaxFilter none conv = none ∧
    (v.gte = none → v.lte = none →
      DWH.getMinMaxFilter (some v) conv = none) ∧
    (v.gte.isSome ∨ v.lte.isSome →
      DWH.getMinMaxFilter (some v) conv
        = some ⟨v.gte.map conv, v.lte.map conv⟩) := by
  refine ⟨rfl, ?_, ?_⟩
  · intro hg hl
    simp [DWH.getMinMaxFilter, hg, hl]
  · intro h
    rcases h with h | h <;> simp [DWH.getMinMaxFilter, h]

/-- Witness for C8 at concrete inputs, covering both the `undefined` case
and the `{min, max}` case. -/
theorem getMinMaxFilter_spec_witness :
    DWH.getMinMaxFilter (some ⟨none, none⟩) (fun s => s) = none ∧
    DWH.getMinMaxFilter (some ⟨some "5", none⟩) (fun s => s)
      = some ⟨some "5", none⟩ :=
  ⟨(getMinMaxFilter_spec (fun s => s) ⟨none, none⟩).2.1 rfl rfl,
   (getMinMaxFilter_spec (fun s => s) ⟨some "5", none⟩).2.2 (Or.inl rfl)⟩

/-- C9: when the filter is absent or its parsed form holds no truthy
`address.$eq` value, `DWH.getWorkers` answers `{records: [], total: 0}`
and performs no fetch. -/
theorem getWorkers_no_fetch (parse : String → WorkersFilter)
    (fetch : String → WorkersFetchParams → Option WorkersRes)
    (q : IListQuery)
    (h : jsTruthy (DWH.parsedWorkersQuery parse q.filter).addressEq = false) :
    DWH.getWorkers parse fetch q = (Except.ok ⟨[], 0⟩, []) := by
  unfold DWH.getWorkers
  cases hq : (DWH.parsedWorkersQuery parse q.filter).addressEq with
  | none => simp [hq]
  | some a =>
    rw [hq] at h
    have ha : a = "" := by simpa [jsTruthy] using h
    simp [hq, ha]

/-- Witness for C9: an absent filter yields the empty result and no fetch. -/
theorem getWorkers_no_fetch_witness :
    DWH.getWorkers (fun _ => ⟨none⟩) (fun _ _ => none) ⟨0, 0, none, none, none⟩
      = (Except.ok ⟨[], 0⟩, []) :=
  getWorkers_no_fetch (fun _ => ⟨none⟩) (fun _ _ => none)
    ⟨0, 0, none, none, none⟩ rfl

/-- One step of reading a decimal numeral left to right: shift the
accumulator and add the digit's value. -/
def readStep (a : Nat) (c : Char) : Nat := 10 * a + (c.toNat - 48)

/-- Read a decimal numeral string back into the number it denotes. -/
def readDecimal (s : String) : Nat := s.data.foldl readStep 0

/-- The value denoted by the decimal digits of `n` appended to the digits
already accumulated in `a`. -/
def pushDigits (a n : Nat) : Nat :=
  if n < 10 then 10 * a + n
  else 10 * pushDigits a (n / 10) + n % 10
termination_by n
decreasing_by exact Nat.div_lt_self (by omega) (by omega)

/-- The map `Nat.digitChar` is inverted by subtracting the code of `'0'`, on
decimal digits. -/
theorem digitChar_inv (d : Nat) (h : d < 10) :
    (Nat.digitChar d).toNat - 48 = d := by
  interval_cases d <;> rfl

/-- Folding `readStep` over the characters `Nat.toDigitsCore` produces
reads back the number: the digits of `n` land between the accumulator and
the pending suffix `ds`. -/
theorem toDigitsCore_foldl (fuel : Nat) :
    ∀ n ds a, n < fuel →
      (Nat.toDigitsCore 10 fuel n ds).foldl readStep a
        = ds.foldl readStep (pushDigits a n) := by
  induction fuel with
  | zero => intro n ds a h; omega
  | succ fuel ih =>
    intro n ds a h
    by_cases hn : n / 10 = 0
    · have hn10 : n < 10 := by omega
      have : Nat.toDigitsCore 10 (fuel + 1) n ds
          = Nat.digitChar (n % 10) :: ds := by
        simp [Nat.toDigitsCore, hn]
      rw [this, List.foldl_cons, pushDigits, if_pos hn10]
      have hstep : readStep a (Nat.digitChar (n % 10)) = 10 * a + n := by
        simp only [readStep, Nat.mod_eq_of_lt hn10, digitChar_inv n hn10]
      rw [hstep]
    · have hrec : Nat.toDigitsCore 10 (fuel + 1) n ds
          = Nat.toDigitsCore 10 fuel (n / 10) (Nat.digitChar (n % 10) :: ds) := by
        simp [Nat.toDigitsCore, hn]
      have hlt : n / 10 < fuel := by omega
      rw [hrec, ih (n / 10) _ a hlt, List.foldl_cons]
      have h10 : ¬ n < 10 := by omega
      have hstep : readStep (pushDigits a (n / 10)) (Nat.digitChar (n % 10))
          = 10 * pushDigits a (n / 10) + n % 10 := by
        simp only [readStep, digitChar_inv (n % 10) (Nat.mod_lt n (by omega))]
      rw [hstep]
      conv_rhs => rw [pushDigits, if_neg h10]

/-- Pushing the digits of `n` onto an empty accumulator yields `n`. -/
theorem pushDigits_zero (n : Nat) : pushDigits 0 n = n := by
  induction n using Nat.strong_induction_on with
  | _ n ih =>
    rw [pushDigits]
    by_cases h : n < 10
    · simp [h]
    · have := ih (n / 10) (by omega)
      rw [if_neg h, this]
      omega

/-- Reading back `Nat.repr` round-trips: reading the decimal string of `n` gives `n`
back, so `Nat.repr n` really is the decimal representation of `n`. -/
theorem readDecimal_repr (n : Nat) : readDecimal (Nat.repr n) = n := by
  have : readDecimal (Nat.repr n)
      = (Nat.toDigitsCore 10 (n + 1) n []).foldl readStep 0 := rfl
  rw [this, toDigitsCore_foldl (n + 1) n [] 0 (Nat.lt_succ_self n)]
  exact pushDigits_zero n

/-- C10: `DWH.recalculatePriceIn` returns the decimal string of exactly
`price * 3600`, with no rounding or overflow — the string reads back to
`price * 3600` exactly. -/
theorem recalculatePriceIn_exact (price : Nat) :
    DWH.recalculatePriceIn price = Nat.repr (price * 3600) ∧
    readDecimal (DWH.recalculatePriceIn price) = price * 3600 :=
  ⟨rfl, readDecimal_repr (price * 3600)⟩

/-- The Correlation Table invariant: live `requestId`s are pairwise
distinct and all below the counter. -/
def TableInv (st : DispState D) : Prop :=
  (keys st.table).Nodup ∧ ∀ k ∈ keys st.table, k < st.nextId

/-- The function `updateEntry` rewrites a value in place and keeps every key. -/
theorem keys_updateEntry (rid : Nat) (f : CorrelationEntry D → CorrelationEntry D)
    (t : List (Nat × CorrelationEntry D)) :
    keys (updateEntry rid f t) = keys t := by
  unfold keys updateEntry
  rw [List.map_map]
  congr 1
  funext kv
  by_cases h : kv.1 = rid <;> simp [h]

/-- Erasing an entry only removes keys. -/
theorem keys_eraseP_sublist (p : Nat × CorrelationEntry D → Bool)
    (t : List (Nat × CorrelationEntry D)) :
    List.Sublist (keys (t.eraseP p)) (keys t) :=
  List.Sublist.map Prod.fst (List.eraseP_sublist t)

/-- The operation `dispatch` preserves the table invariant: the registered id is fresh. -/
theorem inv_dispatch {st : DispState D} (h : TableInv st) : TableInv (dispatch st) := by
  obtain ⟨hnd, hb⟩ := h
  constructor
  · simp only [dispatch, keys, List.map_cons, List.nodup_cons]
    exact ⟨fun hm => absurd (hb _ hm) (lt_irrefl _), hnd⟩
  · intro k hk
    simp only [dispatch, keys, List.map_cons, List.mem_cons] at hk
    simp only [dispatch]
    rcases hk with rfl | hk
    · omega
    · exact Nat.lt_succ_of_lt (hb _ hk)

/-- The operation `onResponse` preserves the table invariant: it only erases or rewrites
entries in place. -/
theorem inv_onResponse (s : Signer P D) {st : DispState D} (h : TableInv st)
    (r : MResponse D) : TableInv (onResponse s st r) := by
  unfold onResponse
  split
  · split
    · exact h
    · split
      · split
        · exact ⟨h.1.sublist (keys_eraseP_sublist _ _),
            fun k hk => h.2 k ((keys_eraseP_sublist _ _).subset hk)⟩
        · exact ⟨by rw [keys_updateEntry]; exact h.1,
            by rw [keys_updateEntry]; exact h.2⟩
      · exact h
  · exact h

/-- The invariant holds along every event sequence. -/
theorem inv_run (s : Signer P D) (evs : List (DispEvent D)) :
    ∀ st : DispState D, TableInv st → TableInv (runEvents s st evs) := by
  induction evs with
  | nil => exact fun st h => h
  | cons e tl ih =>
    intro st h
    simp only [runEvents, List.foldl_cons]
    refine ih _ ?_
    cases e with
    | dispatchEv => exact inv_dispatch h
    | responseEv r => exact inv_onResponse s h r

/-- C2: along every sequence of dispatcher events, the live Correlation
Table entries carry pairwise-distinct `requestId`s, and the id the next
`dispatch` would generate is not live — so an id is never reused while an
entry for it exists. -/
theorem correlation_uniqueness (s : Signer P D) (evs : List (DispEvent D)) :
    (keys (runEvents s (initState D) evs).table).Nodup ∧
    (runEvents s (initState D) evs).nextId
      ∉ keys (runEvents s (initState D) evs).table := by
  have h := inv_run s evs (initState D) ⟨List.nodup_nil, by simp [initState, keys]⟩
  exact ⟨h.1, fun hm => absurd (h.2 _ hm) (lt_irrefl _)⟩

/-- Every Response the Router emits for a Processor's Result chain carries
`success = true`. -/
theorem emitChain_success (s : Signer P D) (rid : Nat) :
    ∀ res : IResult D, ∀ r ∈ emitChain s rid res, r.success = true
  | .mk d v none, r, hr => by
    simp only [emitChain, List.mem_singleton] at hr
    rw [hr]; rfl
  | .mk d v (some next), r, hr => by
    simp only [emitChain, List.mem_cons] at hr
    rcases hr with rfl | hr
    · rfl
    · exact emitChain_success s rid next r hr

/-- C4: any Response the Router emits with `success = false` carries no
data (`data = none`) and has `validation` or `error` populated. -/
theorem failure_response_fields (s : Signer P D)
    (registry : String → Option (TRequestProcessor P D)) (req : MRequest P)
    (resp : MResponse D)
    (hmem : resp ∈ (handleRequest s registry req).responses)
    (hfail : resp.success = false) :
    resp.data = none ∧ (resp.validation.isSome ∨ resp.error.isSome) := by
  unfold handleRequest at hmem
  split at hmem
  · split at hmem
    · simp only [List.mem_singleton] at hmem
      subst hmem
      exact ⟨rfl, Or.inr rfl⟩
    · split at hmem
      · simp only [List.mem_singleton] at hmem
        subst hmem
        exact ⟨rfl, Or.inr rfl⟩
      · have := emitChain_success s req.requestId _ resp hmem
        rw [hfail] at this
        exact absurd this (by simp)
  · simp only [List.mem_singleton] at hmem
    subst hmem
    exact ⟨rfl, Or.inr rfl⟩

/-- Witness for C4: the `unknown method` failure Response of a concrete
request has no data and a populated error. -/
theorem failure_response_fields_witness :
    (⟨some 0, false, none, none, some "unknown method", "t", true⟩
        : MResponse Nat).data = none ∧
    ((⟨some 0, false, none, none, some "unknown method", "t", true⟩
        : MResponse Nat).validation.isSome ∨
      (⟨some 0, false, none, none, some "unknown method", "t", true⟩
        : MResponse Nat).error.isSome) :=
  failure_response_fields (P := Nat)
    ⟨fun _ _ _ => "s", fun _ _ _ _ _ _ => "t"⟩ (fun _ => none)
    ⟨"m", 0, 0, "s"⟩ _
    (by simp [handleRequest, errResponse, mkSignedResp]) rfl

/-- C7: signature verification gates both sides — a Request whose
signature fails verification draws the single `invalid signature` terminal
failure and never invokes the Processor, and a Response whose signature
fails verification leaves the Correlation Table untouched. -/
theorem signature_gating (s : Signer P D)
    (registry : String → Option (TRequestProcessor P D)) (req : MRequest P)
    (st : DispState D) (resp : MResponse D)
    (hreq : req.sign ≠ s.signReq req.method req.requestId req.payload)
    (hresp : resp.sign ≠ s.signResp resp.requestId resp.success resp.data
        resp.validation resp.error resp.done) :
    (handleRequest s registry req).responses
        = [errResponse s req.requestId "invalid signature"] ∧
    (handleRequest s registry req).invoked = false ∧
    onResponse s st resp = st := by
  refine ⟨?_, ?_, ?_⟩
  · simp [handleRequest, hreq]
  · simp [handleRequest, hreq]
  · simp [onResponse, hresp]

/-- Witness for C7: a concretely mis-signed request and response, against
a signer whose tags are `"s"` and `"t"`. -/
theorem signature_gating_witness :
    (handleRequest (P := Nat) (D := Nat)
        ⟨fun _ _ _ => "s", fun _ _ _ _ _ _ => "t"⟩ (fun _ => none)
        ⟨"m", 0, 0, "bad"⟩).responses
      = [errResponse (P := Nat) (D := Nat)
          ⟨fun _ _ _ => "s", fun _ _ _ _ _ _ => "t"⟩ 0 "invalid signature"] ∧
    (handleRequest (P := Nat) (D := Nat)
        ⟨fun _ _ _ => "s", fun _ _ _ _ _ _ => "t"⟩ (fun _ => none)
        ⟨"m", 0, 0, "bad"⟩).invoked = false ∧
    onResponse (P := Nat) ⟨fun _ _ _ => "s", fun _ _ _ _ _ _ => "t"⟩
        (initState Nat) ⟨some 0, true, some 7, none, none, "bad", true⟩
      = initState Nat :=
  signature_gating ⟨fun _ _ _ => "s", fun _ _ _ _ _ _ => "t"⟩ (fun _ => none)
    ⟨"m", 0, 0, "bad"⟩ (initState Nat)
    ⟨some 0, true, some 7, none, none, "bad", true⟩
    (by simp) (by simp)

/-- C5: dispatching `method=M, payload=pv` against a Processor that
synchronously returns `Result{data: dv}` with no continuation puts exactly
one Response on the wire (`done=true`) and the Dispatcher's resolution of
those Responses is `Result{data: dv}`. -/
theorem round_trip (s : Signer P D) (st0 : DispState D) (M : String) (pv : P)
    (registry : String → Option (TRequestProcessor P D))
    (proc : TRequestProcessor P D) (dv : D)
    (hreg : registry M = some proc)
    (hproc : proc M pv = Except.ok (.mk (some dv) none none)) :
    (handleRequest s registry (mkRequest s st0 M pv)).responses
        = [mkSignedResp s (some st0.nextId) true (some dv) none none true] ∧
    resolveChain (handleRequest s registry (mkRequest s st0 M pv)).responses
        = some (.mk (some dv) none none) := by
  have hr : (handleRequest s registry (mkRequest s st0 M pv)).responses
      = [mkSignedResp s (some st0.nextId) true (some dv) none none true] := by
    simp [handleRequest, mkRequest, hreg, hproc, emitChain]
  refine ⟨hr, ?_⟩
  rw [hr]
  simp [resolveChain, mkSignedResp]

/-- Witness for C5 at a concrete signer, processor and payload. -/
theorem round_trip_witness :
    (handleRequest (P := Nat) (D := Nat)
        ⟨fun _ _ _ => "s", fun _ _ _ _ _ _ => "t"⟩
        (fun m => if m = "getN" then some (fun _ _ => .ok (.mk (some 7) none none))
          else none)
        (mkRequest ⟨fun _ _ _ => "s", fun _ _ _ _ _ _ => "t"⟩ (initState Nat)
          "getN" 3)).responses
      = [mkSignedResp (P := Nat) (D := Nat)
          ⟨fun _ _ _ => "s", fun _ _ _ _ _ _ => "t"⟩ (some 0) true
          (some 7) none none true] ∧
    resolveChain (handleRequest (P := Nat) (D := Nat)
        ⟨fun _ _ _ => "s", fun _ _ _ _ _ _ => "t"⟩
        (fun m => if m = "getN" then some (fun _ _ => .ok (.mk (some 7) none none))
          else none)
        (mkRequest ⟨fun _ _ _ => "s", fun _ _ _ _ _ _ => "t"⟩ (initState Nat)
          "getN" 3)).responses
      = some (.mk (some 7) none none) :=
  round_trip ⟨fun _ _ _ => "s", fun _ _ _ _ _ _ => "t"⟩ (initState Nat)
    "getN" 3 _ (fun _ _ => .ok (.mk (some 7) none none)) 7 (by simp) rfl

/-- C6: a dispatched call whose method has no registered Processor draws
exactly one terminal Response (`success=false`, `error="unknown method"`,
`done=true`, Processor never invoked), and after the Dispatcher consumes
it the Correlation Table entry for the call is gone. -/
theorem unknown_method_no_leak (s : Signer P D) (st0 : DispState D)
    (M : String) (pv : P)
    (registry : String → Option (TRequestProcessor P D))
    (hreg : registry M = none)
    (hfresh : st0.nextId ∉ keys st0.table) :
    (handleRequest s registry (mkRequest s st0 M pv)).responses
        = [errResponse s st0.nextId "unknown method"] ∧
    (handleRequest s registry (mkRequest s st0 M pv)).invoked = false ∧
    st0.nextId ∉ keys
      ((handleRequest s registry (mkRequest s st0 M pv)).responses.foldl
        (onResponse s) (dispatch st0)).table := by
  have hr : handleRequest s registry (mkRequest s st0 M pv)
      = ⟨[errResponse s st0.nextId "unknown method"], false⟩ := by
    simp [handleRequest, mkRequest, hreg]
  refine ⟨by rw [hr], by rw [hr], ?_⟩
  rw [hr]
  simp only [List.foldl_cons, List.foldl_nil]
  simp only [onResponse, errResponse, mkSignedResp]
  have hmem : st0.nextId ∈ keys (dispatch st0).table := by
    simp [dispatch, keys]
  rw [if_pos trivial, if_pos hmem, if_pos trivial]
  simp only [dispatch, keys, List.eraseP_cons, beq_self_eq_true, cond_true]
  exact hfresh

/-- Witness for C6: a concrete dispatch of an unregistered method, from
the initial state. -/
theorem unknown_method_no_leak_witness :
    (handleRequest (P := Nat) (D := Nat)
        ⟨fun _ _ _ => "s", fun _ _ _ _ _ _ => "t"⟩ (fun _ => none)
        (mkRequest ⟨fun _ _ _ => "s", fun _ _ _ _ _ _ => "t"⟩ (initState Nat)
          "doesNotExist" 1)).responses
      = [errResponse (P := Nat) (D := Nat)
          ⟨fun _ _ _ => "s", fun _ _ _ _ _ _ => "t"⟩ 0 "unknown method"] ∧
    (handleRequest (P := Nat) (D := Nat)
        ⟨fun _ _ _ => "s", fun _ _ _ _ _ _ => "t"⟩ (fun _ => none)
        (mkRequest ⟨fun _ _ _ => "s", fun _ _ _ _ _ _ => "t"⟩ (initState Nat)
          "doesNotExist" 1)).invoked = false ∧
    (initState Nat).nextId ∉ keys
      ((handleRequest (P := Nat) (D := Nat)
          ⟨fun _ _ _ => "s", fun _ _ _ _ _ _ => "t"⟩ (fun _ => none)
          (mkRequest ⟨fun _ _ _ => "s", fun _ _ _ _ _ _ => "t"⟩ (initState Nat)
            "doesNotExist" 1)).responses.foldl
        (onResponse (P := Nat) ⟨fun _ _ _ => "s", fun _ _ _ _ _ _ => "t"⟩)
        (dispatch (initState Nat))).table :=
  unknown_method_no_leak ⟨fun _ _ _ => "s", fun _ _ _ _ _ _ => "t"⟩
    (initState Nat) "doesNotExist" 1 (fun _ => none) rfl (by simp [initState, keys])

/-- C3: a Processor yielding `Result{data: d1, continuation}` then
`Result{data: d2}` makes the Router produce exactly two Responses with the
caller's `requestId`, the first `done=false` and the second `done=true`,
and the caller draining the continuation chain observes `d1` then `d2` and
nothing more. -/
theorem continuation_chain (s : Signer P D) (st0 : DispState D) (M : String)
    (pv : P) (registry : String → Option (TRequestProcessor P D))
    (proc : TRequestProcessor P D) (d1 d2 : D)
    (hreg : registry M = some proc)
    (hproc : proc M pv = Except.ok
      (.mk (some d1) none (some (.mk (some d2) none none)))) :
    (handleRequest s registry (mkRequest s st0 M pv)).responses
      = [mkSignedResp s (some st0.nextId) true (some d1) none none false,
         mkSignedResp s (some st0.nextId) true (some d2) none none true] ∧
    resolveChain (handleRequest s registry (mkRequest s st0 M pv)).responses
      = some (.mk (some d1) none (some (.mk (some d2) none none))) ∧
    Option.map observe
        (resolveChain (handleRequest s registry (mkRequest s st0 M pv)).responses)
      = some [some d1, some d2] := by
  have hr : (handleRequest s registry (mkRequest s st0 M pv)).responses
      = [mkSignedResp s (some st0.nextId) true (some d1) none none false,
         mkSignedResp s (some st0.nextId) true (some d2) none none true] := by
    simp [handleRequest, mkRequest, hreg, hproc, emitChain]
  refine ⟨hr, ?_, ?_⟩ <;> rw [hr] <;> simp [resolveChain, mkSignedResp, observe]

/-- Witness for C3: a concrete two-part Processor. -/
theorem continuation_chain_witness :
    (handleRequest (P := Nat) (D := Nat)
        ⟨fun _ _ _ => "s", fun _ _ _ _ _ _ => "t"⟩
        (fun _ => some (fun _ _ => .ok
          (.mk (some 1) none (some (.mk (some 2) none none)))))
        (mkRequest ⟨fun _ _ _ => "s", fun _ _ _ _ _ _ => "t"⟩ (initState Nat)
          "page" 0)).responses
      = [mkSignedResp (P := Nat) (D := Nat)
          ⟨fun _ _ _ => "s", fun _ _ _ _ _ _ => "t"⟩ (some 0) true (some 1)
          none none false,
         mkSignedResp (P := Nat) (D := Nat)
          ⟨fun _ _ _ => "s", fun _ _ _ _ _ _ => "t"⟩ (some 0) true (some 2)
          none none true] ∧
    resolveChain (handleRequest (P := Nat) (D := Nat)
        ⟨fun _ _ _ => "s", fun _ _ _ _ _ _ => "t"⟩
        (fun _ => some (fun _ _ => .ok
          (.mk (some 1) none (some (.mk (some 2) none none)))))
        (mkRequest ⟨fun _ _ _ => "s", fun _ _ _ _ _ _ => "t"⟩ (initState Nat)
          "page" 0)).responses
      = some (.mk (some 1) none (some (.mk (some 2) none none))) ∧
    Option.map observe
        (resolveChain (handleRequest (P := Nat) (D := Nat)
          ⟨fun _ _ _ => "s", fun _ _ _ _ _ _ => "t"⟩
          (fun _ => some (fun _ _ => .ok
            (.mk (some 1) none (some (.mk (some 2) none none)))))
          (mkRequest ⟨fun _ _ _ => "s", fun _ _ _ _ _ _ => "t"⟩ (initState Nat)
            "page" 0)).responses)
      = some [some 1, some 2] :=
  continuation_chain ⟨fun _ _ _ => "s", fun _ _ _ _ _ _ => "t"⟩ (initState Nat)
    "page" 0 _ (fun _ _ => .ok (.mk (some 1) none (some (.mk (some 2) none none))))
    1 2 rfl rfl
